import Mathlib

/-
Verification development for the VoxelVerse shooter gameplay core
(src/components/Game.tsx, src/hooks/useStore.ts, src/types.ts).

The TypeScript source is shallowly embedded:
  * Block / BlockType mirror src/types.ts.
  * World generation, add/remove handlers, the fire-cooldown effect and the
    joystick mapping are translated from src/components/Game.tsx.
  * The zustand store's `set` (a shallow object merge, src/hooks/useStore.ts)
    is modelled as a record merge over optional fields.
  * JavaScript numbers are idealised as exact arithmetic: integers for grid
    coordinates and millisecond timestamps, rationals for joystick readings,
    reals for the THREE.js vector math.
  * External physics (Rapier's ray cast) and scene ray intersection results
    are parameters of the corresponding tick functions.
-/

namespace VoxelVerse

/-- Block material enum, from src/types.ts (`enum BlockType`). -/
inductive BlockType where
  | GRASS
  | DIRT
  | STONE
  | WOOD
  | LEAVES
deriving DecidableEq, Repr

/-- A placed block, from src/types.ts (`interface Block`): string id,
integer grid position, material type. -/
structure Block where
  id : String
  pos : Int × Int × Int
  type : BlockType
deriving DecidableEq, Repr

/-- The id template `` `${x}-${y}-${z}` `` used by the world generator and by
`handleAddBlock` in src/components/Game.tsx. -/
def mkId (x y z : Int) : String :=
  toString x ++ "-" ++ toString y ++ "-" ++ toString z

/-- `WORLD_SIZE` constant from src/components/Game.tsx. -/
def WORLD_SIZE : Nat := 32

/-- One iteration of the inner world-generation loop of the `useEffect` in the
`Game` component: for a fixed `(x, z)` it pushes a STONE block at y = 0, a DIRT
block at y = 1 and a GRASS block at y = 2. -/
def groundColumn (x z : Int) : List Block :=
  [ ⟨mkId x 0 z, (x, 0, z), BlockType.STONE⟩,
    ⟨mkId x 1 z, (x, 1, z), BlockType.DIRT⟩,
    ⟨mkId x 2 z, (x, 2, z), BlockType.GRASS⟩ ]

/-- The seven hard-coded tree blocks pushed after the ground loops in the
world-generation `useEffect` (ids are the literal template results). -/
def treeBlocks : List Block :=
  [ ⟨"0-3-0", (0, 3, 0), BlockType.WOOD⟩,
    ⟨"0-4-0", (0, 4, 0), BlockType.WOOD⟩,
    ⟨"0-5-0", (0, 5, 0), BlockType.LEAVES⟩,
    ⟨"1-4-0", (1, 4, 0), BlockType.LEAVES⟩,
    ⟨"-1-4-0", (-1, 4, 0), BlockType.LEAVES⟩,
    ⟨"0-4-1", (0, 4, 1), BlockType.LEAVES⟩,
    ⟨"0-4--1", (0, 4, -1), BlockType.LEAVES⟩ ]

/-- The double loop `for x in [-16, 16) for z in [-16, 16)` of the
world-generation `useEffect`, emitting three layers per column. Loop counters
are re-indexed through `List.range`: iteration `i` handles coordinate
`i - 16`. -/
def groundBlocks : List Block :=
  (List.range WORLD_SIZE).flatMap fun i =>
    (List.range WORLD_SIZE).flatMap fun k =>
      groundColumn ((i : Int) - 16) ((k : Int) - 16)

/-- The world-generation `useEffect` of the `Game` component: the ground
loops followed by the tree pushes. -/
def generate : List Block :=
  groundBlocks ++ treeBlocks

/-- The 32 integer coordinates swept by each world-generation loop. -/
def intRange32 : List Int := (List.range 32).map (fun (i : Nat) => (i : Int) - 16)

/-- The id strings produced for the ground blocks, in generation order. -/
def groundIds : List String :=
  (List.range 32).flatMap fun i => (List.range 32).flatMap fun k =>
    [mkId ((i : Int) - 16) 0 ((k : Int) - 16),
     mkId ((i : Int) - 16) 1 ((k : Int) - 16),
     mkId ((i : Int) - 16) 2 ((k : Int) - 16)]

/-- The id strings of the seven tree blocks, in generation order. -/
def treeIdList : List String :=
  ["0-3-0", "0-4-0", "0-5-0", "1-4-0", "-1-4-0", "0-4-1", "0-4--1"]

/-- `handleAddBlock` from the `Game` component: appends a STONE block whose id
is derived from the position. -/
def handleAddBlock (blocks : List Block) (pos : Int × Int × Int) : List Block :=
  blocks ++ [⟨mkId pos.1 pos.2.1 pos.2.2, pos, BlockType.STONE⟩]

/-- `handleRemoveBlock` from the `Game` component: keeps exactly the blocks
whose id differs from the requested id (`prev.filter (block.id !== id)`). -/
def handleRemoveBlock (blocks : List Block) (id : String) : List Block :=
  blocks.filter (fun b => b.id ≠ id)

/-- The six control booleans of the zustand store (src/hooks/useStore.ts). -/
structure ControlsState where
  forward : Bool
  backward : Bool
  left : Bool
  right : Bool
  jump : Bool
  fire : Bool
deriving DecidableEq, Repr

/-- A partial control-state update, the argument of the store's `set`:
each field is either absent (`none`) or a new boolean value. -/
structure ControlsUpdate where
  forward : Option Bool := none
  backward : Option Bool := none
  left : Option Bool := none
  right : Option Bool := none
  jump : Option Bool := none
  fire : Option Bool := none
deriving DecidableEq, Repr

/-- The store's `set` (src/hooks/useStore.ts, `set: (state) => set(state)`),
whose semantics is zustand's documented shallow object merge: every field
present in the partial update is overwritten, every absent field keeps its
previous value. -/
def setControls (s : ControlsState) (u : ControlsUpdate) : ControlsState :=
  { forward := u.forward.getD s.forward
    backward := u.backward.getD s.backward
    left := u.left.getD s.left
    right := u.right.getD s.right
    jump := u.jump.getD s.jump
    fire := u.fire.getD s.fire }

/-- Result of one run of the fire `useEffect` in the `World` component:
the block list, the `lastShot` timestamp and the store's fire flag. -/
structure ShotState where
  blocks : List Block
  lastShot : Int
  fire : Bool
deriving DecidableEq, Repr

/-- The fire `useEffect` of the `World` component. `now` is `Date.now()` in
milliseconds; `intersects` models `raycaster.intersectObjects(...)`, ordered
by distance, each entry carrying the intersected object's `userData.id` when
present. When the flag is set and the cooldown has elapsed (`> 200` strictly)
the effect records the shot time, removes the nearest intersected block when
its id is truthy (a JavaScript string is truthy iff nonempty), and clears the
fire flag; otherwise nothing changes. -/
def fireTick (fire : Bool) (now lastShot : Int) (blocks : List Block)
    (intersects : List (Option String)) : ShotState :=
  if fire = true ∧ 200 < now - lastShot then
    let blocks2 :=
      match intersects with
      | [] => blocks
      | i :: _ =>
        match i with
        | some id => if id ≠ "" then handleRemoveBlock blocks id else blocks
        | none => blocks
    ⟨blocks2, now, false⟩
  else ⟨blocks, lastShot, fire⟩

/-- The nipplejs `move` handler of the `Hud` component: when `force > 0.2`
it overwrites the four directional booleans from the reported angle (degrees),
otherwise it changes nothing. Comparisons are exactly those of the source. -/
def joystickMove (s : ControlsState) (degree force : ℚ) : ControlsState :=
  if 1/5 < force then
    { s with
      forward := decide (45 < degree ∧ degree < 135)
      backward := decide (225 < degree ∧ degree < 315)
      right := decide (degree ≤ 45 ∨ 315 ≤ degree)
      left := decide (135 ≤ degree ∧ degree ≤ 225) }
  else s

/-- A THREE.js `Vector3`, with JavaScript floats idealised as reals. -/
@[ext]
structure Vec3 where
  x : ℝ
  y : ℝ
  z : ℝ

/-- `THREE.Vector3.length`: `sqrt(x*x + y*y + z*z)`. -/
noncomputable def vlen (v : Vec3) : ℝ :=
  Real.sqrt (v.x * v.x + v.y * v.y + v.z * v.z)

/-- `THREE.Vector3.normalize`: `divideScalar(this.length() || 1)` — the
divisor falls back to 1 when the length is 0, so the zero vector is returned
unchanged rather than divided by itself. -/
noncomputable def normalize (v : Vec3) : Vec3 :=
  let d := if vlen v = 0 then 1 else vlen v
  ⟨v.x / d, v.y / d, v.z / d⟩

/-- `THREE.Vector3.subVectors a b` (componentwise `a - b`). -/
def vsub (a b : Vec3) : Vec3 := ⟨a.x - b.x, a.y - b.y, a.z - b.z⟩

/-- `THREE.Vector3.addVectors`-style componentwise sum (used only by the
spec-side formula). -/
def vadd (a b : Vec3) : Vec3 := ⟨a.x + b.x, a.y + b.y, a.z + b.z⟩

/-- `THREE.Vector3.multiplyScalar c`. -/
def vscale (c : ℝ) (v : Vec3) : Vec3 := ⟨c * v.x, c * v.y, c * v.z⟩

/-- A THREE.js `Euler` angle triple (the camera's `rotation`, default
rotation order XYZ). -/
structure Euler where
  x : ℝ
  y : ℝ
  z : ℝ

/-- Rotation about the x-axis. -/
noncomputable def rotX (a : ℝ) (v : Vec3) : Vec3 :=
  ⟨v.x, Real.cos a * v.y - Real.sin a * v.z, Real.sin a * v.y + Real.cos a * v.z⟩

/-- Rotation about the y-axis. -/
noncomputable def rotY (a : ℝ) (v : Vec3) : Vec3 :=
  ⟨Real.cos a * v.x + Real.sin a * v.z, v.y, -(Real.sin a) * v.x + Real.cos a * v.z⟩

/-- Rotation about the z-axis. -/
noncomputable def rotZ (a : ℝ) (v : Vec3) : Vec3 :=
  ⟨Real.cos a * v.x - Real.sin a * v.y, Real.sin a * v.x + Real.cos a * v.y, v.z⟩

/-- `THREE.Vector3.applyEuler` for the default XYZ order: the composite
rotation Rx ∘ Ry ∘ Rz. -/
noncomputable def applyEuler (e : Euler) (v : Vec3) : Vec3 :=
  rotX e.x (rotY e.y (rotZ e.z v))

/-- `PLAYER_SPEED` constant from src/components/Game.tsx. -/
def PLAYER_SPEED : ℝ := 5

/-- `JUMP_FORCE` constant from src/components/Game.tsx. -/
def JUMP_FORCE : ℝ := 6

/-- The intent-vector computation of the `Player` component's `useFrame`
(src/components/Game.tsx): `frontVector = (0, 0, (backward?1:0)-(forward?1:0))`,
`sideVector = ((left?1:0)-(right?1:0), 0, 0)`, then
`subVectors(frontVector, sideVector).normalize().multiplyScalar(PLAYER_SPEED)
.applyEuler(camera.rotation)`. -/
noncomputable def direction (c : ControlsState) (e : Euler) : Vec3 :=
  let frontVector : Vec3 :=
    ⟨0, 0, (if c.backward then 1 else 0) - (if c.forward then 1 else 0)⟩
  let sideVector : Vec3 :=
    ⟨(if c.left then 1 else 0) - (if c.right then 1 else 0), 0, 0⟩
  applyEuler e (vscale PLAYER_SPEED (normalize (vsub frontVector sideVector)))

/-- The spec's literal intent-vector formula: the front axis value
`(backward?1:0) - (forward?1:0)` placed on the camera-forward axis (which for
a THREE.js camera is local `(0, 0, -1)`), plus the side axis value
`(left?1:0) - (right?1:0)` placed on the camera-right axis (local
`(1, 0, 0)`), then normalized, scaled by `PLAYER_SPEED` and rotated by the
camera orientation. Stated for comparison with `direction`. -/
noncomputable def specDirection (c : ControlsState) (e : Euler) : Vec3 :=
  let frontVal : ℝ := (if c.backward then 1 else 0) - (if c.forward then 1 else 0)
  let sideVal : ℝ := (if c.left then 1 else 0) - (if c.right then 1 else 0)
  applyEuler e (vscale PLAYER_SPEED
    (normalize (vadd (vscale frontVal ⟨0, 0, -1⟩) (vscale sideVal ⟨1, 0, 0⟩))))

/-- The amended spec formula: front axis value `(forward?1:0) - (backward?1:0)`
on the camera-forward axis `(0, 0, -1)` and side axis value
`(right?1:0) - (left?1:0)` on the camera-right axis `(1, 0, 0)`, then
normalized, scaled and rotated as before. -/
noncomputable def specDirectionAmended (c : ControlsState) (e : Euler) : Vec3 :=
  let frontVal : ℝ := (if c.forward then 1 else 0) - (if c.backward then 1 else 0)
  let sideVal : ℝ := (if c.right then 1 else 0) - (if c.left then 1 else 0)
  applyEuler e (vscale PLAYER_SPEED
    (normalize (vadd (vscale frontVal ⟨0, 0, -1⟩) (vscale sideVal ⟨1, 0, 0⟩))))

/-- One `useFrame` tick of the `Player` component, restricted to the linear
velocity it leaves on the rigid body. `v` is `linvel()` read at the start of
the tick, `grounded` is whether the downward ray cast (`castRay`, length 1.1)
hit. The first `setLinvel` installs `(direction.x, v.y, direction.z)`; when
`jump && ray` the second `setLinvel` installs `(v.x, JUMP_FORCE, v.z)` using
the velocity snapshot taken before the first call. -/
noncomputable def tickLinvel (v : Vec3) (c : ControlsState) (grounded : Bool)
    (e : Euler) : Vec3 :=
  let d := direction c e
  let afterMove : Vec3 := ⟨d.x, v.y, d.z⟩
  if c.jump = true ∧ grounded = true then ⟨v.x, JUMP_FORCE, v.z⟩ else afterMove

/- Evaluation helpers for the vector model. -/

theorem applyEuler_id (v : Vec3) : applyEuler ⟨0, 0, 0⟩ v = v := by
  simp [applyEuler, rotX, rotY, rotZ]

theorem applyEuler_zero (e : Euler) : applyEuler e ⟨0, 0, 0⟩ = ⟨0, 0, 0⟩ := by
  simp [applyEuler, rotX, rotY, rotZ]

theorem normalize_zero : normalize ⟨0, 0, 0⟩ = ⟨0, 0, 0⟩ := by
  simp [normalize, vlen]

/-- With no directional key held, the combined vector is zero, the zero-length
guard in `normalize` keeps it zero, and scaling and rotating preserve that. -/
theorem direction_no_dir (j fi : Bool) (e : Euler) :
    direction ⟨false, false, false, false, j, fi⟩ e = ⟨0, 0, 0⟩ := by
  unfold direction
  have h : vsub ⟨0, 0, (if false then (1:ℝ) else 0) - (if false then 1 else 0)⟩
      ⟨(if false then (1:ℝ) else 0) - (if false then 1 else 0), 0, 0⟩ = ⟨0, 0, 0⟩ := by
    simp [vsub]
  simp only [h, normalize_zero]
  have h2 : vscale PLAYER_SPEED ⟨0, 0, 0⟩ = ⟨0, 0, 0⟩ := by simp [vscale]
  rw [h2, applyEuler_zero]

/-- The jump branch of the `Player` tick: when `jump && ray`, the final
`setLinvel` re-installs the pre-tick horizontal velocity around `JUMP_FORCE`. -/
theorem tickLinvel_jump (v : Vec3) (c : ControlsState) (e : Euler)
    (hj : c.jump = true) :
    tickLinvel v c true e = ⟨v.x, JUMP_FORCE, v.z⟩ := by
  unfold tickLinvel
  rw [if_pos ⟨hj, rfl⟩]

/-- C1 (corrected): on a tick with jump intent and a grounded ray hit, the
resulting vertical velocity is the fixed `JUMP_FORCE = 6`, and the horizontal
components are the velocity components read at the start of the tick (the
snapshot taken before the step-3 `setLinvel`), not the intent-derived
horizontal velocity of step 3. -/
theorem C1_jump_overrides_with_pretick_horizontal (v : Vec3) (c : ControlsState)
    (grounded : Bool) (e : Euler) (hj : c.jump = true) (hg : grounded = true) :
    tickLinvel v c grounded e = ⟨v.x, JUMP_FORCE, v.z⟩ := by
  subst hg
  exact tickLinvel_jump v c e hj

theorem C1_witness :
    tickLinvel ⟨1, 2, 3⟩ ⟨false, false, false, false, true, false⟩ true ⟨0, 0, 0⟩
      = ⟨1, 6, 3⟩ :=
  C1_jump_overrides_with_pretick_horizontal ⟨1, 2, 3⟩
    ⟨false, false, false, false, true, false⟩ true ⟨0, 0, 0⟩ rfl rfl

/-- C1 counterexample: with jump intent, grounded, zero directional input,
identity camera rotation and pre-tick velocity (1, 2, 3), the tick leaves
velocity (1, 6, 3), whereas the claim demands the step-3 horizontal velocity
(0, ·, 0): the x component differs. -/
theorem C1_counterexample :
    ¬ ((tickLinvel ⟨1, 2, 3⟩ ⟨false, false, false, false, true, false⟩ true ⟨0, 0, 0⟩).y
          = JUMP_FORCE ∧
       (tickLinvel ⟨1, 2, 3⟩ ⟨false, false, false, false, true, false⟩ true ⟨0, 0, 0⟩).x
          = (direction ⟨false, false, false, false, true, false⟩ ⟨0, 0, 0⟩).x ∧
       (tickLinvel ⟨1, 2, 3⟩ ⟨false, false, false, false, true, false⟩ true ⟨0, 0, 0⟩).z
          = (direction ⟨false, false, false, false, true, false⟩ ⟨0, 0, 0⟩).z) := by
  rw [tickLinvel_jump ⟨1, 2, 3⟩ ⟨false, false, false, false, true, false⟩ ⟨0, 0, 0⟩ rfl,
    direction_no_dir true false ⟨0, 0, 0⟩]
  intro h
  have hx := h.2.1
  norm_num at hx

/-- C2 counterexample: in a world already holding the block with id "1-2-3",
adding at position (1, 2, 3) and then removing the derived id deletes the
pre-existing block as well (the filter drops every match), so the pre-add
block set is not restored. -/
theorem C2_counterexample :
    (⟨mkId 1 2 3, (1, 2, 3), BlockType.STONE⟩ : Block)
        ∈ ([⟨mkId 1 2 3, (1, 2, 3), BlockType.STONE⟩] : List Block) ∧
    (⟨mkId 1 2 3, (1, 2, 3), BlockType.STONE⟩ : Block)
        ∉ handleRemoveBlock
            (handleAddBlock [⟨mkId 1 2 3, (1, 2, 3), BlockType.STONE⟩] (1, 2, 3))
            (mkId 1 2 3) := by
  decide

/-- C2 (corrected): `add(p)` followed by `remove` of the id derived from `p`
restores the world exactly, provided no block of the pre-add world already
carries that derived id. -/
theorem C2_roundtrip (w : List Block) (x y z : Int)
    (h : ∀ b ∈ w, b.id ≠ mkId x y z) :
    handleRemoveBlock (handleAddBlock w (x, y, z)) (mkId x y z) = w := by
  simp only [handleAddBlock, handleRemoveBlock, List.filter_append]
  rw [List.filter_eq_self.mpr (fun b hb => by simpa using h b hb)]
  simp [List.filter]

theorem C2_witness :
    (∀ b ∈ ([⟨mkId 0 0 0, (0, 0, 0), BlockType.STONE⟩] : List Block),
        b.id ≠ mkId 1 2 3) ∧
    handleRemoveBlock
        (handleAddBlock [⟨mkId 0 0 0, (0, 0, 0), BlockType.STONE⟩] (1, 2, 3))
        (mkId 1 2 3)
      = [⟨mkId 0 0 0, (0, 0, 0), BlockType.STONE⟩] :=
  ⟨by decide, C2_roundtrip [⟨mkId 0 0 0, (0, 0, 0), BlockType.STONE⟩] 1 2 3 (by decide)⟩

/-- C3 counterexample: with only `forward` held and the identity camera
rotation, the source computes (0, 0, -5) (toward camera-forward) while the
spec's literal formula — `(backward?1:0)-(forward?1:0)` on the camera-forward
axis (0, 0, -1) and `(left?1:0)-(right?1:0)` on the camera-right axis
(1, 0, 0) — yields (0, 0, 5): the two vectors differ. -/
theorem C3_counterexample :
    direction ⟨true, false, false, false, false, false⟩ ⟨0, 0, 0⟩
      ≠ specDirection ⟨true, false, false, false, false, false⟩ ⟨0, 0, 0⟩ := by
  have hcode : direction ⟨true, false, false, false, false, false⟩ ⟨0, 0, 0⟩
      = ⟨0, 0, -5⟩ := by
    unfold direction
    rw [applyEuler_id]
    have h : vsub ⟨0, 0, (if false then (1:ℝ) else 0) - (if true then 1 else 0)⟩
        ⟨(if false then (1:ℝ) else 0) - (if false then 1 else 0), 0, 0⟩
        = ⟨0, 0, -1⟩ := by simp [vsub]
    rw [h]
    have hn : normalize ⟨0, 0, -1⟩ = ⟨0, 0, -1⟩ := by
      have hl : vlen ⟨0, 0, -1⟩ = 1 := by simp [vlen]
      simp [normalize, hl]
    rw [hn]
    simp [vscale, PLAYER_SPEED]
  have hspec : specDirection ⟨true, false, false, false, false, false⟩ ⟨0, 0, 0⟩
      = ⟨0, 0, 5⟩ := by
    unfold specDirection
    rw [applyEuler_id]
    have h : vadd (vscale ((if false then (1:ℝ) else 0) - (if true then 1 else 0)) ⟨0, 0, -1⟩)
        (vscale ((if false then (1:ℝ) else 0) - (if false then 1 else 0)) ⟨1, 0, 0⟩)
        = ⟨0, 0, 1⟩ := by simp [vadd, vscale]
    rw [h]
    have hn : normalize ⟨0, 0, 1⟩ = ⟨0, 0, 1⟩ := by
      have hl : vlen ⟨0, 0, 1⟩ = 1 := by simp [vlen]
      simp [normalize, hl]
    rw [hn]
    simp [vscale, PLAYER_SPEED]
  rw [hcode, hspec]
  intro h
  have := congrArg Vec3.z h
  norm_num at this

/-- C3 (corrected): for every control state and camera rotation, the source's
intent vector equals the amended formula — `(forward?1:0)-(backward?1:0)` on
the camera-forward axis and `(right?1:0)-(left?1:0)` on the camera-right axis,
normalized, scaled by the fixed speed 5, then rotated by the camera's current
orientation. -/
theorem C3_intent_vector (c : ControlsState) (e : Euler) :
    direction c e = specDirectionAmended c e := by
  unfold direction specDirectionAmended
  have h : vsub ⟨0, 0, (if c.backward then (1:ℝ) else 0) - (if c.forward then 1 else 0)⟩
      ⟨(if c.left then (1:ℝ) else 0) - (if c.right then 1 else 0), 0, 0⟩
      = vadd (vscale ((if c.forward then (1:ℝ) else 0) - (if c.backward then 1 else 0)) ⟨0, 0, -1⟩)
          (vscale ((if c.right then (1:ℝ) else 0) - (if c.left then 1 else 0)) ⟨1, 0, 0⟩) := by
    ext <;> simp [vsub, vadd, vscale]
  simp only [direction, specDirectionAmended]
  rw [h]

/-- C6: once a shot has been processed at time `t` (flag set, cooldown
elapsed), a second fire event observed at any `t'` with `t' - t ≤ 200`
performs no world mutation, whatever the flag and intersection list then are. -/
theorem C6_cooldown (f2 : Bool) (ls0 t tp : Int) (w : List Block)
    (i1 i2 : List (Option String))
    (hc : 200 < t - ls0) (h2 : tp - t ≤ 200) :
    (fireTick f2 tp (fireTick true t ls0 w i1).lastShot
        (fireTick true t ls0 w i1).blocks i2).blocks
      = (fireTick true t ls0 w i1).blocks := by
  have hfirst : (fireTick true t ls0 w i1).lastShot = t := by
    unfold fireTick
    rw [if_pos ⟨rfl, hc⟩]
  rw [hfirst]
  unfold fireTick
  rw [if_neg (fun hcon => absurd hcon.2 (by omega))]

theorem C6_witness :
    (200:Int) < 300 - 0 ∧ (400:Int) - 300 ≤ 200 ∧
    (fireTick true 400 (fireTick true 300 0 [] []).lastShot
        (fireTick true 300 0 [] []).blocks []).blocks
      = (fireTick true 300 0 [] []).blocks :=
  ⟨by decide, by decide,
    C6_cooldown true 0 300 400 [] [] [] (by decide) (by decide)⟩

/-- C8: whenever the fire effect processes a fire event (flag true, cooldown
elapsed), the fire flag is cleared afterwards, for every intersection list —
hit, miss, or hit without an associated block id. -/
theorem C8_fire_cleared (f : Bool) (now ls : Int) (w : List Block)
    (i : List (Option String)) (h1 : f = true) (h2 : 200 < now - ls) :
    (fireTick f now ls w i).fire = false := by
  unfold fireTick
  rw [if_pos ⟨h1, h2⟩]

theorem C8_witness :
    (fireTick true 300 0 [] [some (mkId 0 0 0)]).fire = false :=
  C8_fire_cleared true 300 0 [] [some (mkId 0 0 0)] rfl (by decide)

/-- C9: for angles in [0°, 360°), the joystick handler sets exactly the
spec's angle partition when the force exceeds 0.2, and changes nothing when
the force is at most 0.2. -/
theorem C9_joystick (s : ControlsState) (degree force : ℚ)
    (h0 : 0 ≤ degree) (h1 : degree < 360) :
    (1/5 < force →
      joystickMove s degree force =
        { s with
          forward := decide (45 < degree ∧ degree < 135)
          backward := decide (225 < degree ∧ degree < 315)
          left := decide (135 ≤ degree ∧ degree ≤ 225)
          right := decide ((0 ≤ degree ∧ degree ≤ 45) ∨ (315 ≤ degree ∧ degree < 360)) }) ∧
    (force ≤ 1/5 → joystickMove s degree force = s) := by
  constructor
  · intro hf
    unfold joystickMove
    rw [if_pos hf]
    have hr : decide (degree ≤ 45 ∨ 315 ≤ degree)
        = decide ((0 ≤ degree ∧ degree ≤ 45) ∨ (315 ≤ degree ∧ degree < 360)) := by
      simp only [decide_eq_decide]
      constructor
      · rintro (h | h)
        · exact Or.inl ⟨h0, h⟩
        · exact Or.inr ⟨h, h1⟩
      · rintro (⟨_, h⟩ | ⟨h, _⟩)
        · exact Or.inl h
        · exact Or.inr h
    rw [hr]
  · intro hf
    unfold joystickMove
    rw [if_neg (not_lt.mpr hf)]

theorem C9_witness :
    (0:ℚ) ≤ 90 ∧ (90:ℚ) < 360 ∧ (1:ℚ)/5 < 1/2 ∧
    joystickMove ⟨false, false, false, false, false, false⟩ 90 (1/2)
      = ⟨true, false, false, false, false, false⟩ := by
  refine ⟨by norm_num, by norm_num, by norm_num, ?_⟩
  rw [(C9_joystick ⟨false, false, false, false, false, false⟩ 90 (1/2)
    (by norm_num) (by norm_num)).1 (by norm_num)]
  decide

/-- C10: the store's `set` merges a partial update — every flag not mentioned
in the argument keeps its previous value. -/
theorem C10_partial_merge (s : ControlsState) (u : ControlsUpdate) :
    (u.forward = none → (setControls s u).forward = s.forward) ∧
    (u.backward = none → (setControls s u).backward = s.backward) ∧
    (u.left = none → (setControls s u).left = s.left) ∧
    (u.right = none → (setControls s u).right = s.right) ∧
    (u.jump = none → (setControls s u).jump = s.jump) ∧
    (u.fire = none → (setControls s u).fire = s.fire) := by
  refine ⟨fun h => ?_, fun h => ?_, fun h => ?_, fun h => ?_, fun h => ?_, fun h => ?_⟩ <;>
    simp [setControls, h]

theorem C10_witness :
    (setControls ⟨true, true, true, true, true, true⟩
      ⟨none, none, none, none, none, some false⟩).forward = true ∧
    (setControls ⟨true, true, true, true, true, true⟩
      ⟨none, none, none, none, none, some false⟩).backward = true ∧
    (setControls ⟨true, true, true, true, true, true⟩
      ⟨none, none, none, none, none, some false⟩).left = true ∧
    (setControls ⟨true, true, true, true, true, true⟩
      ⟨none, none, none, none, none, some false⟩).right = true ∧
    (setControls ⟨true, true, true, true, true, true⟩
      ⟨none, none, none, none, none, some false⟩).jump = true ∧
    (setControls ⟨true, true, true, true, true, true⟩
      ⟨none, none, none, none, none, some false⟩).fire = false :=
  ⟨(C10_partial_merge _ _).1 rfl, (C10_partial_merge _ _).2.1 rfl,
    (C10_partial_merge _ _).2.2.1 rfl, (C10_partial_merge _ _).2.2.2.1 rfl,
    (C10_partial_merge _ _).2.2.2.2.1 rfl, by decide⟩

/-- C7: when all four directional booleans are false, the computed intent
vector is the zero vector (the `length() || 1` guard in `normalize` divides
the zero vector by 1, not by its own zero length), for every camera rotation
and every state of the jump and fire flags. In the real-valued idealisation
no NaN exists; the substance of the claim is that the result is exactly 0. -/
theorem C7_zero_input (j fi : Bool) (e : Euler) :
    direction ⟨false, false, false, false, j, fi⟩ e = ⟨0, 0, 0⟩ :=
  direction_no_dir j fi e

/- World generation: size, contents and id uniqueness. -/

theorem groundBlocks_length : groundBlocks.length = 3072 := by
  have hinner : ∀ x : Int,
      ((List.range 32).flatMap fun k => groundColumn x ((k : Int) - 16)).length = 96 := by
    intro x
    simp [List.length_flatMap, groundColumn, Function.comp_def, List.map_const',
      List.sum_replicate]
  simp [groundBlocks, WORLD_SIZE, List.length_flatMap, Function.comp_def, hinner,
    List.map_const', List.sum_replicate]

theorem mem_groundBlocks_iff (b : Block) :
    b ∈ groundBlocks ↔ ∃ x z : Int,
      -16 ≤ x ∧ x < 16 ∧ -16 ≤ z ∧ z < 16 ∧ b ∈ groundColumn x z := by
  simp only [groundBlocks, WORLD_SIZE, List.mem_flatMap, List.mem_range]
  constructor
  · rintro ⟨i, hi, k, hk, hb⟩
    exact ⟨(i : Int) - 16, (k : Int) - 16, by omega, by omega, by omega, by omega, hb⟩
  · rintro ⟨x, z, hx1, hx2, hz1, hz2, hb⟩
    refine ⟨(x + 16).toNat, by omega, (z + 16).toNat, by omega, ?_⟩
    have ex : (((x + 16).toNat : Nat) : Int) - 16 = x := by omega
    have ez : (((z + 16).toNat : Nat) : Int) - 16 = z := by omega
    rw [ex, ez]
    exact hb

/-- C4: world generation is deterministic (it is a pure constant of the
model) and complete — the generated list has exactly 3·32² + 7 = 3079 blocks,
and a block triple occurs in it exactly when it is a STONE at y = 0, DIRT at
y = 1 or GRASS at y = 2 for integer x, z in [-16, 16) (with the derived id),
or one of the seven fixed tree blocks. -/
theorem C4_generate_characterization :
    generate.length = 3079 ∧
    ∀ b : Block, b ∈ generate ↔
      ((∃ x z : Int, -16 ≤ x ∧ x < 16 ∧ -16 ≤ z ∧ z < 16 ∧
          (b = ⟨mkId x 0 z, (x, 0, z), BlockType.STONE⟩ ∨
           b = ⟨mkId x 1 z, (x, 1, z), BlockType.DIRT⟩ ∨
           b = ⟨mkId x 2 z, (x, 2, z), BlockType.GRASS⟩)) ∨
        b ∈ treeBlocks) := by
  constructor
  · rw [generate, List.length_append, groundBlocks_length]
    rfl
  · intro b
    rw [generate, List.mem_append, mem_groundBlocks_iff]
    apply or_congr_left
    constructor
    · rintro ⟨x, z, hx1, hx2, hz1, hz2, hb⟩
      refine ⟨x, z, hx1, hx2, hz1, hz2, ?_⟩
      simpa only [groundColumn, List.mem_cons, List.not_mem_nil, or_false] using hb
    · rintro ⟨x, z, hx1, hx2, hz1, hz2, hb⟩
      refine ⟨x, z, hx1, hx2, hz1, hz2, ?_⟩
      simpa only [groundColumn, List.mem_cons, List.not_mem_nil, or_false] using hb

/- Uniqueness of generated ids. The delicate point is that ids are strings:
`mkId` concatenates the decimal forms of the three coordinates with "-"
separators, and negative coordinates themselves start with a minus sign, so
injectivity is proved by splitting a joint string at its first non-leading
dash. -/

theorem mem_intRange32 {n : Int} (h1 : -16 ≤ n) (h2 : n ≤ 15) : n ∈ intRange32 :=
  List.mem_map.mpr ⟨(n + 16).toNat,
    List.mem_range.mpr (show (n + 16).toNat < 32 by omega),
    show (((n + 16).toNat : Nat) : Int) - 16 = n by omega⟩

theorem intRange32_strings_nodup : (intRange32.map toString).Nodup := by decide

theorem intRange32_str_ok :
    ∀ n ∈ intRange32, (toString n).data ≠ [] ∧ ∀ c ∈ (toString n).data.tail, c ≠ '-' := by
  decide

theorem intRange32_digits :
    ∀ n ∈ intRange32, 0 ≤ n → ∀ c ∈ (toString n).data, c ≠ '-' := by
  decide

/-- Splitting a concatenation at a dash when neither left part contains a
dash at all. -/
theorem dashfree_split (X : List Char) : ∀ (Y R S : List Char),
    (∀ c ∈ X, c ≠ '-') → (∀ c ∈ Y, c ≠ '-') →
    X ++ '-' :: R = Y ++ '-' :: S → X = Y ∧ R = S := by
  induction X with
  | nil =>
    intro Y R S _ hY h
    cases Y with
    | nil => simpa using h
    | cons b bs =>
      simp only [List.nil_append, List.cons_append, List.cons.injEq] at h
      exact absurd h.1.symm (hY b (List.mem_cons_self b bs))
  | cons a as ih =>
    intro Y R S hX hY h
    cases Y with
    | nil =>
      simp only [List.cons_append, List.nil_append, List.cons.injEq] at h
      exact absurd h.1 (hX a (List.mem_cons_self a as))
    | cons b bs =>
      simp only [List.cons_append, List.cons.injEq] at h
      obtain ⟨hab, hrest⟩ := h
      obtain ⟨h1, h2⟩ := ih bs R S (fun c hc => hX c (List.mem_cons_of_mem a hc))
        (fun c hc => hY c (List.mem_cons_of_mem b hc)) hrest
      exact ⟨by rw [hab, h1], h2⟩

/-- Splitting a concatenation at the first non-leading dash: the left parts
are decimal integer strings, so only their first character may be a dash. -/
theorem intstring_split (A B R S : List Char)
    (hA : A ≠ []) (hB : B ≠ [])
    (tA : ∀ c ∈ A.tail, c ≠ '-') (tB : ∀ c ∈ B.tail, c ≠ '-')
    (h : A ++ '-' :: R = B ++ '-' :: S) : A = B ∧ R = S := by
  cases A with
  | nil => exact absurd rfl hA
  | cons a as =>
    cases B with
    | nil => exact absurd rfl hB
    | cons b bs =>
      simp only [List.cons_append, List.cons.injEq] at h
      obtain ⟨hab, hrest⟩ := h
      obtain ⟨h1, h2⟩ := dashfree_split as bs R S tA tB hrest
      exact ⟨by rw [hab, h1], h2⟩

theorem mkId_data (x y z : Int) :
    (mkId x y z).data
      = (toString x).data ++ '-' :: ((toString y).data ++ '-' :: (toString z).data) := by
  have hdash : ("-" : String).data = ['-'] := rfl
  simp [mkId, String.data_append, hdash]

/-- `mkId` is injective on the coordinate ranges the game produces:
x and z in [-16, 15], y a single decimal digit. -/
theorem mkId_inj {x y z x' y' z' : Int}
    (hx1 : -16 ≤ x) (hx2 : x ≤ 15) (hy1 : 0 ≤ y) (hy2 : y ≤ 9)
    (hz1 : -16 ≤ z) (hz2 : z ≤ 15)
    (hx1' : -16 ≤ x') (hx2' : x' ≤ 15) (hy1' : 0 ≤ y') (hy2' : y' ≤ 9)
    (hz1' : -16 ≤ z') (hz2' : z' ≤ 15)
    (h : mkId x y z = mkId x' y' z') : x = x' ∧ y = y' ∧ z = z' := by
  have hd := congrArg String.data h
  rw [mkId_data, mkId_data] at hd
  have mx := mem_intRange32 hx1 hx2
  have mx' := mem_intRange32 hx1' hx2'
  have my := mem_intRange32 (by omega : (-16:Int) ≤ y) (by omega)
  have my' := mem_intRange32 (by omega : (-16:Int) ≤ y') (by omega)
  have mz := mem_intRange32 hz1 hz2
  have mz' := mem_intRange32 hz1' hz2'
  obtain ⟨sx, rest⟩ := intstring_split (toString x).data (toString x').data _ _
    (intRange32_str_ok x mx).1 (intRange32_str_ok x' mx').1
    (intRange32_str_ok x mx).2 (intRange32_str_ok x' mx').2 hd
  obtain ⟨sy, sz⟩ := dashfree_split (toString y).data (toString y').data _ _
    (intRange32_digits y my hy1) (intRange32_digits y' my' hy1') rest
  refine ⟨?_, ?_, ?_⟩
  · exact List.inj_on_of_nodup_map intRange32_strings_nodup mx mx' (String.ext sx)
  · exact List.inj_on_of_nodup_map intRange32_strings_nodup my my' (String.ext sy)
  · exact List.inj_on_of_nodup_map intRange32_strings_nodup mz mz' (String.ext sz)

theorem nodup_three {α : Type} [DecidableEq α] {a b c : α}
    (h1 : a ≠ b) (h2 : a ≠ c) (h3 : b ≠ c) : ([a, b, c] : List α).Nodup := by
  simp [List.nodup_cons, h1, h2, h3]

theorem mem_inner_ids {s : String} {x : Int} {k : Nat}
    (h : s ∈ [mkId x 0 ((k : Int) - 16), mkId x 1 ((k : Int) - 16),
      mkId x 2 ((k : Int) - 16)]) :
    ∃ y : Int, 0 ≤ y ∧ y ≤ 2 ∧ s = mkId x y ((k : Int) - 16) := by
  simp only [List.mem_cons, List.not_mem_nil, or_false] at h
  rcases h with h | h | h
  · exact ⟨0, by omega, by omega, h⟩
  · exact ⟨1, by omega, by omega, h⟩
  · exact ⟨2, by omega, by omega, h⟩

theorem groundIds_nodup : groundIds.Nodup := by
  rw [groundIds, List.nodup_flatMap]
  constructor
  · intro i hi
    rw [List.mem_range] at hi
    rw [List.nodup_flatMap]
    constructor
    · intro k hk
      rw [List.mem_range] at hk
      refine nodup_three ?_ ?_ ?_ <;>
      · intro h
        have := mkId_inj (by omega) (by omega) (by omega) (by omega) (by omega) (by omega)
          (by omega) (by omega) (by omega) (by omega) (by omega) (by omega) h
        omega
    · refine List.Pairwise.imp_of_mem ?_ (List.pairwise_lt_range 32)
      intro k1 k2 h1 h2 hlt s hs1 hs2
      rw [List.mem_range] at h1 h2
      obtain ⟨y1, hy11, hy12, he1⟩ := mem_inner_ids hs1
      obtain ⟨y2, hy21, hy22, he2⟩ := mem_inner_ids hs2
      have heq : mkId ((i : Int) - 16) y1 ((k1 : Int) - 16)
          = mkId ((i : Int) - 16) y2 ((k2 : Int) - 16) := by rw [← he1, ← he2]
      have := mkId_inj (by omega) (by omega) (by omega) (by omega) (by omega) (by omega)
        (by omega) (by omega) (by omega) (by omega) (by omega) (by omega) heq
      omega
  · refine List.Pairwise.imp_of_mem ?_ (List.pairwise_lt_range 32)
    intro i1 i2 h1 h2 hlt s hs1 hs2
    rw [List.mem_range] at h1 h2
    rw [List.mem_flatMap] at hs1 hs2
    obtain ⟨k1, hk1, hin1⟩ := hs1
    obtain ⟨k2, hk2, hin2⟩ := hs2
    rw [List.mem_range] at hk1 hk2
    obtain ⟨y1, hy11, hy12, he1⟩ := mem_inner_ids hin1
    obtain ⟨y2, hy21, hy22, he2⟩ := mem_inner_ids hin2
    have heq : mkId ((i1 : Int) - 16) y1 ((k1 : Int) - 16)
        = mkId ((i2 : Int) - 16) y2 ((k2 : Int) - 16) := by rw [← he1, ← he2]
    have := mkId_inj (by omega) (by omega) (by omega) (by omega) (by omega) (by omega)
      (by omega) (by omega) (by omega) (by omega) (by omega) (by omega) heq
    omega

theorem treeIdList_nodup : treeIdList.Nodup := by decide

theorem tree_id_form : ∀ s ∈ treeIdList, ∃ x y z : Int,
    -16 ≤ x ∧ x ≤ 15 ∧ 3 ≤ y ∧ y ≤ 9 ∧ -16 ≤ z ∧ z ≤ 15 ∧ s = mkId x y z := by
  intro s hs
  simp only [treeIdList, List.mem_cons, List.not_mem_nil, or_false] at hs
  rcases hs with h | h | h | h | h | h | h
  · exact ⟨0, 3, 0, by omega, by omega, by omega, by omega, by omega, by omega, by rw [h]; decide⟩
  · exact ⟨0, 4, 0, by omega, by omega, by omega, by omega, by omega, by omega, by rw [h]; decide⟩
  · exact ⟨0, 5, 0, by omega, by omega, by omega, by omega, by omega, by omega, by rw [h]; decide⟩
  · exact ⟨1, 4, 0, by omega, by omega, by omega, by omega, by omega, by omega, by rw [h]; decide⟩
  · exact ⟨-1, 4, 0, by omega, by omega, by omega, by omega, by omega, by omega, by rw [h]; decide⟩
  · exact ⟨0, 4, 1, by omega, by omega, by omega, by omega, by omega, by omega, by rw [h]; decide⟩
  · exact ⟨0, 4, -1, by omega, by omega, by omega, by omega, by omega, by omega, by rw [h]; decide⟩

theorem ground_id_form : ∀ s ∈ groundIds, ∃ x y z : Int,
    -16 ≤ x ∧ x ≤ 15 ∧ 0 ≤ y ∧ y ≤ 2 ∧ -16 ≤ z ∧ z ≤ 15 ∧ s = mkId x y z := by
  intro s hs
  rw [groundIds, List.mem_flatMap] at hs
  obtain ⟨i, hi, hs⟩ := hs
  rw [List.mem_range] at hi
  rw [List.mem_flatMap] at hs
  obtain ⟨k, hk, hs⟩ := hs
  rw [List.mem_range] at hk
  obtain ⟨y, hy1, hy2, he⟩ := mem_inner_ids hs
  exact ⟨(i : Int) - 16, y, (k : Int) - 16,
    by omega, by omega, hy1, hy2, by omega, by omega, he⟩

theorem all_ids_nodup : (groundIds ++ treeIdList).Nodup := by
  rw [List.nodup_append]
  refine ⟨groundIds_nodup, treeIdList_nodup, ?_⟩
  intro s hs1 hs2
  obtain ⟨x, y, z, hb1, hb2, hb3, hb4, hb5, hb6, he⟩ := ground_id_form s hs1
  obtain ⟨x', y', z', hc1, hc2, hc3, hc4, hc5, hc6, he'⟩ := tree_id_form s hs2
  have heq : mkId x y z = mkId x' y' z' := by rw [← he, ← he']
  have := mkId_inj (by omega) (by omega) (by omega) (by omega) (by omega) (by omega)
    (by omega) (by omega) (by omega) (by omega) (by omega) (by omega) heq
  omega

theorem generate_map_id : generate.map Block.id = groundIds ++ treeIdList := by
  have h1 : groundBlocks.map Block.id = groundIds := by
    rw [groundBlocks, groundIds]
    simp only [WORLD_SIZE, List.map_flatMap, groundColumn, List.map_cons, List.map_nil]
  have h2 : treeBlocks.map Block.id = treeIdList := by decide
  rw [generate, List.map_append, h1, h2]

/-- C5: every block id produced by one `generate()` call is unique — the list
of id strings of the generated world has no duplicate. -/
theorem C5_generated_ids_nodup : (generate.map Block.id).Nodup := by
  rw [generate_map_id]
  exact all_ids_nodup

end VoxelVerse
